import Mathlib

/-!
Shallow embedding of the HTTP route trie from
`API-Gateway/components/gateway/trie.py`.

Python dictionaries are modelled as association lists with
insert-or-replace-in-place semantics (matching CPython dict insertion
order); handlers (`Callable`) are modelled as opaque `Nat` tokens; the
in-place mutation of the shared `params` dictionary during the recursive
match is modelled by threading the parameter map through the recursion
and returning its final state alongside the result, so that mutations
that persist past a failed branch in the Python code persist in the
model as well.
-/

namespace Gateway

/-- The `HTTPMethod` enum from the source. -/
inductive HTTPMethod where
  | GET | POST | PUT | DELETE | PATCH | HEAD | OPTIONS
deriving DecidableEq, Repr

/-- `HTTPMethod(s)` — enum construction by value; `none` models the
`ValueError` raised for a string outside the enumerated set. -/
def HTTPMethod.ofString (s : String) : Option HTTPMethod :=
  if s = "GET" then some .GET
  else if s = "POST" then some .POST
  else if s = "PUT" then some .PUT
  else if s = "DELETE" then some .DELETE
  else if s = "PATCH" then some .PATCH
  else if s = "HEAD" then some .HEAD
  else if s = "OPTIONS" then some .OPTIONS
  else none

/-- Handlers are opaque tokens (the code never calls them during
registration or matching). -/
abbrev Handler := Nat

/-- Association-list lookup, modelling Python `d[k]` / `k in d`. -/
def lookupA {α β : Type} [DecidableEq α] : List (α × β) → α → Option β
  | [], _ => none
  | (k, v) :: rest, a => if k = a then some v else lookupA rest a

/-- Association-list insert-or-replace, modelling Python `d[k] = v`
(an existing key keeps its position; a new key is appended, matching
CPython insertion order). -/
def insertA {α β : Type} [DecidableEq α] : List (α × β) → α → β → List (α × β)
  | [], a, b => [(a, b)]
  | (k, v) :: rest, a, b =>
      if k = a then (a, b) :: rest else (k, v) :: insertA rest a b

/-- `TrieNode` from the source: static children (a dict keyed by exact
segment text), at most one parameter child with its bound name, at most
one wildcard child with its bound name, the per-method handler dict,
the `route_pattern` metadata string, and the `is_endpoint` flag. -/
inductive TrieNode where
  | mk
      (staticChildren : List (String × TrieNode))
      (paramChild : Option (String × TrieNode))
      (wildcardChild : Option (String × TrieNode))
      (handlers : List (HTTPMethod × Handler))
      (route_pattern : String)
      (is_endpoint : Bool)

def TrieNode.staticChildren : TrieNode → List (String × TrieNode)
  | .mk s _ _ _ _ _ => s

def TrieNode.paramChild : TrieNode → Option (String × TrieNode)
  | .mk _ p _ _ _ _ => p

def TrieNode.wildcardChild : TrieNode → Option (String × TrieNode)
  | .mk _ _ w _ _ _ => w

def TrieNode.handlers : TrieNode → List (HTTPMethod × Handler)
  | .mk _ _ _ h _ _ => h

def TrieNode.route_pattern : TrieNode → String
  | .mk _ _ _ _ r _ => r

def TrieNode.is_endpoint : TrieNode → Bool
  | .mk _ _ _ _ _ e => e

/-- `TrieNode.__init__`: empty children, no handlers, empty pattern,
not an endpoint. -/
def TrieNode.empty : TrieNode := .mk [] none none [] "" false

/-- The parameter map built during a match (Python `Dict[str, str]`). -/
abbrev Params := List (String × String)

/-- `'/'` character predicate used by `strip('/')`. -/
def isSlash (c : Char) : Bool := c = '/'

/-- Python `s.strip('/')` on a character list: drop leading and
trailing slashes. -/
def stripSlashes (l : List Char) : List Char :=
  ((l.dropWhile isSlash).reverse.dropWhile isSlash).reverse

/-- Python `s.split('/')` on a character list: split on every slash,
keeping empty pieces (so `"a//b"` yields `["a", "", "b"]`). -/
def splitSlashes : List Char → List String
  | [] => [""]
  | c :: rest =>
      let r := splitSlashes rest
      if isSlash c then "" :: r
      else
        match r with
        | [] => [String.mk [c]]
        | s :: tail => String.mk (c :: s.toList) :: tail

/-- `RouteTrie._parse_pattern`: strip leading/trailing slashes, return
no segments for the empty result, otherwise split on the slash. -/
def parsePattern (pattern : String) : List String :=
  let clean := stripSlashes pattern.toList
  if clean = [] then [] else splitSlashes clean

/-- `RouteTrie._parse_path`: same logic as pattern parsing. -/
def parsePath (path : String) : List String :=
  let clean := stripSlashes path.toList
  if clean = [] then [] else splitSlashes clean

/-- The inline segment classification of `_get_or_create_child`:
`segment.startswith('{') and segment.endswith('}')`. -/
def isBraceSegment (s : String) : Bool :=
  s.toList.head? = some '{' ∧ s.toList.getLast? = some '}'

/-- The inner text of a brace segment, Python `segment[1:-1]`. -/
def innerName (s : String) : String :=
  String.mk ((s.toList.drop 1).dropLast)

/-- One step of `_get_or_create_child` followed by the `add_route`
loop, realised as structural recursion over the remaining segments
(the Python loop mutates nodes in place; here each visited node is
rebuilt with its updated child). At the final node the handler is
stored, the pattern string recorded and the endpoint flag set, exactly
as `add_route` does after the loop. -/
def insertSegs (node : TrieNode) : List String → HTTPMethod → Handler → String → TrieNode
  | [], m, h, pat =>
      .mk node.staticChildren node.paramChild node.wildcardChild
        (insertA node.handlers m h) pat true
  | seg :: rest, m, h, pat =>
      if isBraceSegment seg then
        let name := innerName seg
        if name.toList.head? = some '*' then
          let wname := String.mk (name.toList.drop 1)
          match node.wildcardChild with
          | none =>
              .mk node.staticChildren node.paramChild
                (some (wname, insertSegs TrieNode.empty rest m h pat))
                node.handlers node.route_pattern node.is_endpoint
          | some (n, c) =>
              .mk node.staticChildren node.paramChild
                (some (n, insertSegs c rest m h pat))
                node.handlers node.route_pattern node.is_endpoint
        else
          match node.paramChild with
          | none =>
              .mk node.staticChildren
                (some (name, insertSegs TrieNode.empty rest m h pat))
                node.wildcardChild node.handlers node.route_pattern node.is_endpoint
          | some (n, c) =>
              .mk node.staticChildren
                (some (n, insertSegs c rest m h pat))
                node.wildcardChild node.handlers node.route_pattern node.is_endpoint
      else
        let child :=
          match lookupA node.staticChildren seg with
          | some c => c
          | none => TrieNode.empty
        .mk (insertA node.staticChildren seg (insertSegs child rest m h pat))
          node.paramChild node.wildcardChild node.handlers
          node.route_pattern node.is_endpoint

/-- `RouteTrie`: owns the root node. -/
structure RouteTrie where
  root : TrieNode

/-- `RouteTrie.__init__`. -/
def RouteTrie.empty : RouteTrie := ⟨TrieNode.empty⟩

/-- `RouteTrie.add_route`. -/
def RouteTrie.add_route (t : RouteTrie) (m : HTTPMethod) (pattern : String)
    (h : Handler) : RouteTrie :=
  ⟨insertSegs t.root (parsePattern pattern) m h pattern⟩

/-- `'/'.join(segments[index:])` for the wildcard capture. -/
def joinSlash (l : List String) : String := String.intercalate "/" l

/-- `RouteTrie._match_recursive`. The Python function mutates the
shared `params` dict; here the map is threaded through and its final
state returned even on failure, which reproduces the in-place
mutations exactly: the parameter branch restores the map captured
before its attempt (`params.clear(); params.update(old_params)`),
while a failed wildcard attempt leaves its binding in the map. -/
def matchRec (node : TrieNode) : List String → Params → Option TrieNode × Params
  | [], params =>
      if node.is_endpoint then (some node, params) else (none, params)
  | seg :: rest, params =>
      let s1 : Option TrieNode × Params :=
        match lookupA node.staticChildren seg with
        | some child => matchRec child rest params
        | none => (none, params)
      match s1 with
      | (some n, p) => (some n, p)
      | (none, p1) =>
        let s2 : Option TrieNode × Params :=
          match node.paramChild with
          | some (pname, pchild) =>
              let p2 := insertA p1 pname seg
              match matchRec pchild rest p2 with
              | (some n, p3) => (some n, p3)
              | (none, _) => (none, p1)
          | none => (none, p1)
        match s2 with
        | (some n, p) => (some n, p)
        | (none, p4) =>
          match node.wildcardChild with
          | some (wname, wchild) =>
              let p5 := insertA p4 wname (joinSlash (seg :: rest))
              if wchild.is_endpoint then (some wchild, p5) else (none, p5)
          | none => (none, p4)

/-- `RouteMatch` from the source (`handler`, `path_params`,
`route_pattern`). -/
structure RouteMatch where
  handler : Handler
  path_params : Params
  route_pattern : String
deriving DecidableEq, Repr

/-- `RouteTrie.match`: parse the path, run the recursive match from the
root with a fresh parameter dict, and accept only if the returned node
carries a handler for the requested method. -/
def RouteTrie.match (t : RouteTrie) (m : HTTPMethod) (path : String) :
    Option RouteMatch :=
  let segments := parsePath path
  match matchRec t.root segments [] with
  | (some node, params) =>
      match lookupA node.handlers m with
      | some h => some ⟨h, params, node.route_pattern⟩
      | none => none
  | (none, _) => none

/-- Python `method.upper()` (ASCII uppercase of each character, which
coincides with `str.upper` on the ASCII method strings involved). -/
def upperString (s : String) : String :=
  String.mk (s.toList.map Char.toUpper)

/-- `HTTPRouter.match`: convert the method string to the enum
(`method.upper()`); a `ValueError` (unknown method) is caught and
`None` returned. -/
def routerMatch (t : RouteTrie) (method : String) (path : String) :
    Option RouteMatch :=
  match HTTPMethod.ofString (upperString method) with
  | some m => t.match m path
  | none => none

/-- Fold a list of GET registrations into a trie, used to state
order-independence of overlapping registrations. -/
def trieOfGET (l : List (String × Handler)) : RouteTrie :=
  l.foldl (fun t ph => t.add_route .GET ph.1 ph.2) RouteTrie.empty

/-- The three match results the precedence contract prescribes for the
trie holding the routes of the spec's precedence example. -/
def precedenceTriple (t : RouteTrie) (h1 h2 h3 : Handler) : Prop :=
  t.match .GET "/a/b" = some ⟨h1, [], "/a/b"⟩ ∧
  t.match .GET "/a/x" = some ⟨h2, [("id", "x")], "/a/{id}"⟩ ∧
  t.match .GET "/a/x/y" = some ⟨h3, [("rest", "x/y")], "/a/{*rest}"⟩

/-- Trie where a failed wildcard attempt precedes a successful
parameter match at the root: the first route builds a non-endpoint
wildcard child under the static segment node for a. -/
def leakTrie : RouteTrie := trieOfGET [("/a/{*w}/b", 1), ("/{p}/x", 2)]

/-- Trie of the spec's backtracking example. -/
def backtrackTrie : RouteTrie := trieOfGET [("/a/{id}/fixed", 1), ("/a/{*rest}", 2)]

/-- Deeper backtracking variant: two parameter bindings are abandoned
before the wildcard wins. -/
def backtrackTrie2 : RouteTrie := trieOfGET [("/a/{id}/{id2}/fixed", 1), ("/a/{*rest}", 2)]

/-- Trie with a single GET route, used for the unsupported-method
comparison. -/
def oneRouteTrie : RouteTrie := trieOfGET [("/a/b", 1)]

/-- Trie where the static candidate for `/a/b` carries only a POST
handler while the parameter sibling carries GET. -/
def methodTrie : RouteTrie :=
  (RouteTrie.empty.add_route .POST "/a/b" 1).add_route .GET "/a/{id}" 2

/-- Trie with a single wildcard route under the static segment a. -/
def wildTrie : RouteTrie := RouteTrie.empty.add_route .GET "/a/{*rest}" 1

set_option maxHeartbeats 3200000 in
/-- C1: with the routes /a/b, /a/(id) and /a/(*rest) all registered for
GET, in every one of the six possible registration orders, Match(GET,
/a/b) returns the static handler with an empty parameter map, Match(GET,
/a/x) returns the parameter handler with id bound to x, and Match(GET,
/a/x/y) returns the wildcard handler with rest bound to x/y: static
beats parameter beats wildcard regardless of registration order. -/
theorem match_precedence_all_orders (h1 h2 h3 : Handler) :
    precedenceTriple (trieOfGET [("/a/b", h1), ("/a/{id}", h2), ("/a/{*rest}", h3)]) h1 h2 h3 ∧
    precedenceTriple (trieOfGET [("/a/b", h1), ("/a/{*rest}", h3), ("/a/{id}", h2)]) h1 h2 h3 ∧
    precedenceTriple (trieOfGET [("/a/{id}", h2), ("/a/b", h1), ("/a/{*rest}", h3)]) h1 h2 h3 ∧
    precedenceTriple (trieOfGET [("/a/{id}", h2), ("/a/{*rest}", h3), ("/a/b", h1)]) h1 h2 h3 ∧
    precedenceTriple (trieOfGET [("/a/{*rest}", h3), ("/a/b", h1), ("/a/{id}", h2)]) h1 h2 h3 ∧
    precedenceTriple (trieOfGET [("/a/{*rest}", h3), ("/a/{id}", h2), ("/a/b", h1)]) h1 h2 h3 :=
  ⟨⟨rfl, rfl, rfl⟩, ⟨rfl, rfl, rfl⟩, ⟨rfl, rfl, rfl⟩,
   ⟨rfl, rfl, rfl⟩, ⟨rfl, rfl, rfl⟩, ⟨rfl, rfl, rfl⟩⟩

/-- C2 counterexample: backtracking is not transactional for the
wildcard branch. In leakTrie the failed wildcard attempt under the
static a node leaves the binding of w in the shared parameter map, and
the RouteMatch finally returned through the root parameter branch
carries that leaked binding even though w is not a segment name of the
winning pattern. -/
theorem wildcard_attempt_leaks_binding :
    leakTrie.match .GET "/a/x" = some ⟨2, [("w", "x"), ("p", "a")], "/{p}/x"⟩ ∧
    "w" ∉ (parsePattern "/{p}/x").map innerName :=
  ⟨rfl, by decide⟩

/-- C2 amended: the parameter branch is transactional (its failed
attempts are rolled back exactly, including nested ones), so the
spec's cited example returns a map containing only rest. -/
theorem param_backtracking_restores_map :
    backtrackTrie.match .GET "/a/123/other"
      = some ⟨2, [("rest", "123/other")], "/a/{*rest}"⟩ ∧
    backtrackTrie2.match .GET "/a/1/2/other"
      = some ⟨2, [("rest", "1/2/other")], "/a/{*rest}"⟩ :=
  ⟨rfl, rfl⟩

/-- C3 counterexample: registering a pattern whose wildcard segment is
not last raises nothing and mutates the trie, contradicting the claim
that the registration is fully rejected with no partial mutation. -/
theorem malformed_pattern_mutates_trie :
    RouteTrie.empty.add_route .GET "/a/{*rest}/b" 6 ≠ RouteTrie.empty := by
  intro h
  exact absurd (congrArg (fun t => t.root.staticChildren.length) h) (by decide)

/-- C3 amended: add_route performs no pattern validation. A segment
with an unbalanced brace is silently treated as a static segment and is
matchable literally; an empty parameter name is accepted and binds the
empty-string key; a non-terminal wildcard builds nodes beneath the
wildcard child, leaving the registered route unreachable by Match. -/
theorem add_route_accepts_malformed_patterns :
    (trieOfGET [("/x/\x7bid", 5)]).match .GET "/x/\x7bid"
      = some ⟨5, [], "/x/\x7bid"⟩ ∧
    (RouteTrie.empty.add_route .GET "/a/\x7b\x7d" 8).match .GET "/a/q"
      = some ⟨8, [("", "q")], "/a/\x7b\x7d"⟩ ∧
    (trieOfGET [("/a/{*r}/b", 6)]).match .GET "/a/z/b" = none ∧
    (trieOfGET [("/a/{*r}/b", 6)]).match .GET "/a/z" = none :=
  ⟨rfl, rfl, rfl, rfl⟩

/-- C4 counterexample: the router returns the very same value (None)
for an out-of-enum method as for a valid method with no matching route,
so the two outcomes are not distinguishable by the caller. -/
theorem unsupported_method_equals_notfound :
    routerMatch oneRouteTrie "TRACE" "/a/b" = none ∧
    routerMatch oneRouteTrie "GET" "/zzz" = none ∧
    routerMatch oneRouteTrie "TRACE" "/a/b" = routerMatch oneRouteTrie "GET" "/zzz" :=
  ⟨rfl, rfl, rfl⟩

/-- C4 amended: for every trie and every path, matching with the
out-of-enum method TRACE yields None (the ValueError is swallowed),
the same value NotFound produces. -/
theorem unknown_method_returns_none (t : RouteTrie) (path : String) :
    routerMatch t "TRACE" path = none := rfl

/-- C5 counterexample: method sensitivity is checked on the single node
the search returns, not at the leaf during the search. In methodTrie
the static node for /a/b holds only a POST handler, so Match(GET, /a/b)
returns None even though the parameter sibling holds a GET handler that
does serve /a/c — the search does not fall through to the sibling. -/
theorem method_checked_after_search :
    methodTrie.match .GET "/a/b" = none ∧
    methodTrie.match .GET "/a/c" = some ⟨2, [("id", "c")], "/a/{id}"⟩ ∧
    methodTrie.match .GET "/a/b" ≠ some ⟨2, [("id", "b")], "/a/{id}"⟩ :=
  ⟨rfl, rfl, by decide⟩

/-- C5 amended: the endpoint flag alone is checked at the leaf; the
method table of the returned node is consulted once, after the search.
A route registered for GET only yields None for POST (never the GET
handler), and a wrong-method first candidate makes the whole match
return None rather than continuing to a lower-priority alternative. -/
theorem method_sensitivity_post_search :
    (RouteTrie.empty.add_route .GET "/x" 3).match .POST "/x" = none ∧
    (RouteTrie.empty.add_route .GET "/x" 3).match .GET "/x" = some ⟨3, [], "/x"⟩ ∧
    methodTrie.match .GET "/a/b" = none :=
  ⟨rfl, rfl, rfl⟩

/-- C6 counterexample: a path that ends exactly where the wildcard
begins does not match the wildcard route: the base case fires at the
static a node, which is not an endpoint, before the wildcard branch is
ever consulted, so zero remaining segments never bind the wildcard. -/
theorem wildcard_zero_segments_no_match :
    wildTrie.match .GET "/a" = none ∧ wildTrie.match .GET "/a/" = none :=
  ⟨rfl, rfl⟩

/-- C6 amended: a wildcard matches one or more remaining segments,
binding its name to the separator-joined remainder and accepting
exactly when the wildcard child is an endpoint, never recursing past
the wildcard; with zero remaining segments the wildcard route is not
matched. -/
theorem wildcard_requires_remaining_segment :
    wildTrie.match .GET "/a/x" = some ⟨1, [("rest", "x")], "/a/{*rest}"⟩ ∧
    wildTrie.match .GET "/a/x/y" = some ⟨1, [("rest", "x/y")], "/a/{*rest}"⟩ ∧
    wildTrie.match .GET "/a" = none :=
  ⟨rfl, rfl, rfl⟩

theorem stripSlashes_slash_cons (l : List Char) :
    stripSlashes ('/' :: l) = stripSlashes l := by
  unfold stripSlashes
  rw [List.dropWhile_cons_of_pos (by decide : isSlash '/' = true)]

theorem stripSlashes_concat_slash (l : List Char) :
    stripSlashes (l ++ ['/']) = stripSlashes l := by
  induction l with
  | nil => rfl
  | cons c l ih =>
    by_cases hc : c = '/'
    · subst hc
      rw [List.cons_append, stripSlashes_slash_cons, ih, stripSlashes_slash_cons]
    · have hcf : isSlash c = false := by simp [isSlash, hc]
      unfold stripSlashes
      rw [List.cons_append, List.dropWhile_cons_of_neg (by simp [hcf]),
        List.dropWhile_cons_of_neg (by simp [hcf]), ← List.cons_append,
        List.reverse_append, List.reverse_cons]
      simp only [List.reverse_nil, List.nil_append, List.singleton_append]
      rw [List.dropWhile_cons_of_pos (by decide : isSlash '/' = true)]

theorem parsePath_leading_slash (p : String) :
    parsePath ("/" ++ p) = parsePath p := by
  have h : ("/" ++ p).toList = '/' :: p.toList := by
    show ("/" ++ p).data = '/' :: p.data
    rw [String.data_append]
    rfl
  simp only [parsePath, h, stripSlashes_slash_cons]

theorem parsePath_trailing_slash (p : String) :
    parsePath (p ++ "/") = parsePath p := by
  have h : (p ++ "/").toList = p.toList ++ ['/'] := by
    show (p ++ "/").data = p.data ++ ['/']
    rw [String.data_append]
  simp only [parsePath, h, stripSlashes_concat_slash]

/-- C7: Match is invariant under adding a leading or a trailing path
separator, for every trie, method and path, because request paths (and
patterns, by the identical parse function) are normalized by stripping
leading and trailing separators before splitting. -/
theorem match_slash_normalization (t : RouteTrie) (m : HTTPMethod) (p : String) :
    t.match m ("/" ++ p) = t.match m p ∧
    t.match m (p ++ "/") = t.match m p ∧
    parsePattern p = parsePath p := by
  refine ⟨?_, ?_, rfl⟩
  · simp only [RouteTrie.match, parsePath_leading_slash]
  · simp only [RouteTrie.match, parsePath_trailing_slash]

theorem lookupA_insertA_self {α β : Type} [DecidableEq α]
    (l : List (α × β)) (k : α) (v : β) :
    lookupA (insertA l k v) k = some v := by
  induction l with
  | nil => simp [insertA, lookupA]
  | cons kv rest ih =>
    obtain ⟨k1, v1⟩ := kv
    by_cases h : k1 = k
    · subst h
      simp [insertA, lookupA]
    · simp [insertA, lookupA, h, ih]

theorem matchRec_insert_static (segs : List String) (node : TrieNode)
    (m : HTTPMethod) (h : Handler) (pat : String) (params : Params)
    (hs : ∀ s ∈ segs, isBraceSegment s = false) :
    ∃ leaf : TrieNode,
      matchRec (insertSegs node segs m h pat) segs params = (some leaf, params) ∧
      lookupA leaf.handlers m = some h ∧ leaf.route_pattern = pat := by
  induction segs generalizing node params with
  | nil =>
    exact ⟨insertSegs node [] m h pat, rfl, lookupA_insertA_self node.handlers m h, rfl⟩
  | cons seg rest ih =>
    have hseg : isBraceSegment seg = false := hs seg (by simp)
    have hrest : ∀ s ∈ rest, isBraceSegment s = false := fun s hsm => hs s (by simp [hsm])
    cases hl : lookupA node.staticChildren seg with
    | some c =>
      obtain ⟨leaf, h1, h2, h3⟩ := ih c params hrest
      refine ⟨leaf, ?_, h2, h3⟩
      simp only [insertSegs, hseg, Bool.false_eq_true, if_false, hl]
      simp only [matchRec, TrieNode.staticChildren,
        lookupA_insertA_self, h1]
    | none =>
      obtain ⟨leaf, h1, h2, h3⟩ := ih TrieNode.empty params hrest
      refine ⟨leaf, ?_, h2, h3⟩
      simp only [insertSegs, hseg, Bool.false_eq_true, if_false, hl]
      simp only [matchRec, TrieNode.staticChildren,
        lookupA_insertA_self, h1]

/-- C8: for every trie state, registering an all-static pattern (no
brace segments) and then matching the same method with the pattern
itself as the request path returns exactly the registered handler, an
empty parameter map and the registered pattern string. -/
theorem static_round_trip (t : RouteTrie) (m : HTTPMethod) (p : String)
    (h : Handler) (hp : ∀ s ∈ parsePattern p, isBraceSegment s = false) :
    (t.add_route m p h).match m p = some ⟨h, [], p⟩ := by
  obtain ⟨leaf, h1, h2, h3⟩ :=
    matchRec_insert_static (parsePattern p) t.root m h p [] hp
  have hpp : parsePath p = parsePattern p := rfl
  simp only [RouteTrie.match, RouteTrie.add_route, hpp, h1, h2, h3]

/-- C8 witness: the round-trip theorem applied to the all-static
pattern /api/users. -/
theorem static_round_trip_witness :
    (∀ s ∈ parsePattern "/api/users", isBraceSegment s = false) ∧
    (RouteTrie.empty.add_route .GET "/api/users" 7).match .GET "/api/users"
      = some ⟨7, [], "/api/users"⟩ :=
  ⟨by decide, static_round_trip RouteTrie.empty .GET "/api/users" 7 (by decide)⟩

theorem insertA_insertA {α β : Type} [DecidableEq α]
    (l : List (α × β)) (k : α) (v1 v2 : β) :
    insertA (insertA l k v1) k v2 = insertA l k v2 := by
  induction l with
  | nil => simp [insertA]
  | cons kv rest ih =>
    obtain ⟨k1, u⟩ := kv
    by_cases hk : k1 = k
    · subst hk
      simp [insertA]
    · simp [insertA, hk, ih]

theorem insertSegs_overwrite (segs : List String) (node : TrieNode)
    (m : HTTPMethod) (h1 h2 : Handler) (pat : String) :
    insertSegs (insertSegs node segs m h1 pat) segs m h2 pat
      = insertSegs node segs m h2 pat := by
  induction segs generalizing node with
  | nil =>
    cases node with
    | mk s pc wc hnd rp ep =>
      simp [insertSegs, TrieNode.staticChildren, TrieNode.paramChild,
        TrieNode.wildcardChild, TrieNode.handlers, insertA_insertA]
  | cons seg rest ih =>
    cases node with
    | mk s pc wc hnd rp ep =>
      by_cases hb : isBraceSegment seg
      · by_cases hw : (innerName seg).data.head? = some '*'
        · cases wc with
          | none =>
            simp [insertSegs, hb, hw, TrieNode.staticChildren,
              TrieNode.paramChild, TrieNode.wildcardChild, TrieNode.handlers,
              TrieNode.route_pattern, TrieNode.is_endpoint, ih]
          | some nc =>
            obtain ⟨n, c⟩ := nc
            simp [insertSegs, hb, hw, TrieNode.staticChildren,
              TrieNode.paramChild, TrieNode.wildcardChild, TrieNode.handlers,
              TrieNode.route_pattern, TrieNode.is_endpoint, ih]
        · cases pc with
          | none =>
            simp [insertSegs, hb, hw, TrieNode.staticChildren,
              TrieNode.paramChild, TrieNode.wildcardChild, TrieNode.handlers,
              TrieNode.route_pattern, TrieNode.is_endpoint, ih]
          | some nc =>
            obtain ⟨n, c⟩ := nc
            simp [insertSegs, hb, hw, TrieNode.staticChildren,
              TrieNode.paramChild, TrieNode.wildcardChild, TrieNode.handlers,
              TrieNode.route_pattern, TrieNode.is_endpoint, ih]
      · cases hl : lookupA s seg with
        | some c =>
          simp [insertSegs, hb, hl, TrieNode.staticChildren,
            TrieNode.paramChild, TrieNode.wildcardChild, TrieNode.handlers,
            TrieNode.route_pattern, TrieNode.is_endpoint,
            lookupA_insertA_self, insertA_insertA, ih]
        | none =>
          simp [insertSegs, hb, hl, TrieNode.staticChildren,
            TrieNode.paramChild, TrieNode.wildcardChild, TrieNode.handlers,
            TrieNode.route_pattern, TrieNode.is_endpoint,
            lookupA_insertA_self, insertA_insertA, ih]

/-- C9: duplicate registration is deterministic. Re-registering the
same (method, pattern) pair makes the later handler win and leaves the
trie with exactly the structure a single registration of the later
handler builds (no node is restructured); and registering two patterns
that put different parameter names at the same trie position keeps the
first-registered name in all subsequent matches, while the handler and
the reported pattern string of the later write win. -/
theorem duplicate_registration_policy :
    (∀ (t : RouteTrie) (m : HTTPMethod) (p : String) (h1 h2 : Handler),
      (t.add_route m p h1).add_route m p h2 = t.add_route m p h2) ∧
    ((RouteTrie.empty.add_route .GET "/a/{id}" 1).add_route .GET "/a/{other}" 2).match .GET "/a/v"
      = some ⟨2, [("id", "v")], "/a/{other}"⟩ :=
  ⟨fun t m p h1 h2 =>
    congrArg RouteTrie.mk (insertSegs_overwrite (parsePattern p) t.root m h1 h2 p),
   rfl⟩

/-- C10: after GET /a/(id) and then POST /a/(x) are registered, both
registrations terminate at the same parameter node; matches for either
method report the most recently written pattern string while the bound
parameter name stays the first-registered one (id). -/
theorem route_pattern_last_write_param_name_first (h1 h2 : Handler) :
    ((RouteTrie.empty.add_route .GET "/a/{id}" h1).add_route .POST "/a/{x}" h2).match .GET "/a/v"
      = some ⟨h1, [("id", "v")], "/a/{x}"⟩ ∧
    ((RouteTrie.empty.add_route .GET "/a/{id}" h1).add_route .POST "/a/{x}" h2).match .POST "/a/w"
      = some ⟨h2, [("id", "w")], "/a/{x}"⟩ :=
  ⟨rfl, rfl⟩

end Gateway
